import Mathlib

/-!
# Verification of the hybrid RAG chatbot core

Shallow embedding of the repository's core logic:

* `chunkText` (server/services/documentProcessor.js) — document chunking with
  overlap and word-safe truncation.  Text is modelled as `List Char`
  (JavaScript string indices become list positions).
* `HybridRagService` (server/services/HybridRagService.js) — the query router:
  classification, confidence-gated retrieval, summarization fallback.
* `geminiAI.determineQueryType` / `generateText` / `summarizeDocumentContent`
  (server/services/geminiAI.js) — the LLM boundary, modelled with explicit
  oracles for the external model call, the regex JSON match and `JSON.parse`.

Similarity scores are floating point in the source; they are modelled as
rationals (`ℚ`), which preserves the order relations the confidence gate uses.
External collaborators (vector store, Mongo models, the Gemini API) are
parameters of the embedding; fallible calls return `Except String _`, mirroring
JavaScript exceptions.
-/

set_option maxRecDepth 40000

namespace ChatbotCore

/-! ## Chunker (documentProcessor.js, `chunkText`) -/

/-- JavaScript whitespace test used by `String.prototype.trim` (approximated by
`Char.isWhitespace`). -/
def jsWhitespace (c : Char) : Bool := c.isWhitespace

/-- `s.trim()` on a string modelled as a character list. -/
def jsTrim (l : List Char) : List Char :=
  ((l.dropWhile jsWhitespace).reverse.dropWhile jsWhitespace).reverse

/-- `text.slice(start, stop)` for `0 ≤ start ≤ stop` (clamped at the end of the
string, as in JavaScript). -/
def jsSlice (l : List Char) (start stop : Nat) : List Char :=
  (l.drop start).take (stop - start)

/-- `s.lastIndexOf(' ')`, as an `Option Nat` (`none` encodes JavaScript's `-1`). -/
def lastSpaceIdx : List Char → Option Nat
  | [] => none
  | c :: cs =>
    match lastSpaceIdx cs with
    | some i => some (i + 1)
    | none => if c = ' ' then some 0 else none

/-- One window of the chunking loop: take `size` characters at `start`; if the
window does not reach the end of the text, cut back to the last `' '` when its
index is `> 0` (`chunkText` lines 63-71). -/
def windowSlice (text : List Char) (size start : Nat) : List Char :=
  let endIndex := min (start + size) text.length
  let w := jsSlice text start endIndex
  if endIndex < text.length then
    match lastSpaceIdx w with
    | some lastSpace => if 0 < lastSpace then w.take lastSpace else w
    | none => w
  else w

/-- The untruncated window of one chunking iteration:
`text.slice(startIndex, Math.min(startIndex + size, text.length))`
(`chunkText` lines 63-64). -/
def windowRaw (text : List Char) (size start : Nat) : List Char :=
  jsSlice text start (min (start + size) text.length)

/-- The update of `startIndex` at the end of one loop iteration
(`chunkText` lines 84-88).  In the source `startIndex` is a JavaScript number
and `actualEndIndex - chunkTextSlice.length` equals the old `startIndex`; with
truncated `Nat` subtraction the branch condition and both branch values agree
with the JavaScript ones, because `a - b ≤ c` in `Nat` iff `a ≤ c + b` in `ℤ`,
and the subtraction result is only used when it exceeds `start ≥ 0`. -/
def nextStart (start sliceLen overlap : Nat) : Nat :=
  let actualEndIndex := start + sliceLen
  if actualEndIndex - overlap ≤ actualEndIndex - sliceLen then actualEndIndex
  else actualEndIndex - overlap

/-- Metadata attached to a chunk (`chunkText` lines 78-81). -/
structure ChunkMetadata where
  source : List Char
  chunkId : List Char
  deriving DecidableEq, Repr

/-- A produced chunk (`pageContent` includes the source-document header). -/
structure DocChunk where
  pageContent : List Char
  metadata : ChunkMetadata
  deriving DecidableEq, Repr

/-- The header prepended to every chunk:
`Source Document: "${filename}"\n\nContent: ` (`chunkText` line 74). -/
def chunkHeader (filename : List Char) : List Char :=
  "Source Document: \"".toList ++ filename ++ "\"\n\nContent: ".toList

/-- Build the chunk object pushed on each iteration (`chunkText` lines 74-82). -/
def mkChunk (filename : List Char) (chunkIndex : Nat) (slice : List Char) : DocChunk :=
  { pageContent := chunkHeader filename ++ jsTrim slice
    metadata :=
      { source := filename
        chunkId := filename ++ "_chunk_".toList ++ (toString chunkIndex).toList } }

/-- The `while (startIndex < text.length)` loop of `chunkText`, with explicit
fuel (the loop itself has no structural measure; `chunkText` supplies
`text.length`, which the termination theorem shows is enough whenever
`size > 0`). -/
def chunkLoop (text filename : List Char) (size overlap : Nat) :
    Nat → Nat → Nat → List DocChunk
  | _, _, 0 => []
  | start, chunkIndex, fuel + 1 =>
    if start < text.length then
      let slice := windowSlice text size start
      mkChunk filename chunkIndex slice ::
        chunkLoop text filename size overlap
          (nextStart start slice.length overlap) (chunkIndex + 1) fuel
    else []

/-- `DocumentProcessor.chunkText` with the chunk size and overlap as explicit
parameters (the constructor fixes them to `512` and `100`). -/
def chunkText (text filename : List Char) (size overlap : Nat) : List DocChunk :=
  if (jsTrim text).isEmpty then []
  else
    (chunkLoop text filename size overlap 0 0 text.length).filter
      (fun chunk => 0 < chunk.pageContent.length)

/-- The chunk size fixed by the `DocumentProcessor` constructor. -/
def defaultChunkSize : Nat := 512

/-- The chunk overlap fixed by the `DocumentProcessor` constructor. -/
def defaultChunkOverlap : Nat := 100

/-- `chunkText` as the deployed service runs it (size 512, overlap 100). -/
def chunkTextDefault (text filename : List Char) : List DocChunk :=
  chunkText text filename defaultChunkSize defaultChunkOverlap

/-! ## Data model of the router (HybridRagService.js, geminiAI.js)

Strings at this level stay as `String`.  Fallible external calls are modelled
as oracles returning `Except String _` (a `.error` is a thrown JavaScript
exception). -/

/-- `s.trim()` on a `String`. -/
def jsTrimString (s : String) : String := String.mk (jsTrim s.toList)

/-- `s.substring(0, n)`. -/
def jsSubstringTo (s : String) (n : Nat) : String := String.mk (s.toList.take n)

/-- JavaScript truthiness of an optional string parameter (e.g. `fileId`):
`null`/`undefined` and the empty string are falsy. -/
def jsTruthyStr : Option String → Bool
  | some s => !(s == "")
  | none => false

/-- Result of the LLM classification (`determineQueryType`).  The parsed JSON
is never validated, so `type` is an arbitrary string. -/
structure QueryAnalysisRaw where
  «type» : String
  reason : String
  deriving DecidableEq, Repr

/-- Metadata of a chunk returned by the vector store (only `fileName` is read
by the router; `undefined` is `none`). -/
structure RetrievedChunkMeta where
  fileName : Option String
  deriving DecidableEq, Repr

/-- A scored chunk returned by `vectorStore.searchDocuments`.  The similarity
score is a float in the source, modelled as a rational. -/
structure RetrievedChunk where
  content : String
  score : ℚ
  metadata : RetrievedChunkMeta
  deriving DecidableEq

/-- A user document (`User` model); only `personalizationProfile` is read. -/
structure UserRec where
  personalizationProfile : String
  deriving DecidableEq, Repr

/-- A stored file (`File` model); the router reads `path` and `originalname`. -/
structure FileRec where
  path : String
  originalname : String
  deriving DecidableEq, Repr

/-- One entry of the `sources` array of a router result. -/
structure SourceRef where
  title : String
  «type» : String
  deriving DecidableEq, Repr

/-- The `metadata` object of a router result (`source_count` is present only on
the `rag` branch). -/
structure ResultMetadata where
  searchType : String
  sources : List SourceRef
  source_count : Option Nat
  deriving DecidableEq, Repr

/-- The object returned by the router (`{ message, metadata }`). -/
structure RouterResult where
  message : String
  metadata : ResultMetadata
  deriving DecidableEq, Repr

/-- External collaborators of the router.

* `enabled` — `geminiAI.isEnabled()` (the API key / model singleton).
* `llm` — one call of `model.generateContent` followed by
  `_processApiResponse`; `.error` covers rejected requests and blocked
  responses.
* `jsonMatch` — the regex match `text.match(/\x7b[\s\S]*\x7d/)`.
* `jsonParse` — `JSON.parse` on the matched text, as the analysis object.
* `searchDocuments query limit userId fileId?` — the vector store.
* `findUser` — `User.findById`.
* `findFile fileId userId` — `File.findOne({_id, user})`.
* `parseFile` — `documentProcessor.parseFile` on the file's path. -/
structure Env where
  enabled : Bool
  llm : String → Except String String
  jsonMatch : String → Option String
  jsonParse : String → Except String QueryAnalysisRaw
  searchDocuments : String → Nat → String → Option String → Except String (List RetrievedChunk)
  findUser : String → Except String (Option UserRec)
  findFile : String → String → Except String (Option FileRec)
  parseFile : String → Except String String

/-! ## geminiAI.js -/

/-- The prompt of `determineQueryType` (geminiAI.js lines 129-137). -/
def classificationPrompt (query : String) : String :=
  "\nAnalyze the user\x27s query and classify its intent. Choose one of two types:\n1.  \"specific\": The user is asking a direct question about a fact, concept, or detail that can likely be found in a specific part of a document. Examples: \"What is the database schema?\", \"How does the authentication work?\", \"List the main components.\"\n2.  \"broad\": The user is asking for a general summary, explanation, or overview of the entire document. Examples: \"explain this document\", \"summarize this\", \"what is this about?\", \"give me the key points\".\n\nUser Query: \"" ++ query ++
  "\"\n\nRespond with ONLY a valid JSON object in the format: \x7b\"type\": \"specific\" | \"broad\", \"reason\": \"A brief explanation for your choice.\"\x7d.\n"

/-- `geminiAI.determineQueryType` (lines 126-149): classify the query, falling
back to `specific` when the model is disabled, the call throws, no JSON object
is found, or `JSON.parse` throws.  The function is total: no failure escapes. -/
def determineQueryType (enabled : Bool) (llm : String → Except String String)
    (jsonMatch : String → Option String)
    (jsonParse : String → Except String QueryAnalysisRaw) (query : String) :
    QueryAnalysisRaw :=
  if !enabled then { «type» := "specific", reason := "AI disabled" }
  else
    match llm (classificationPrompt query) with
    | .error _ => { «type» := "specific", reason := "Error during analysis." }
    | .ok text =>
      match jsonMatch text with
      | some matched =>
        match jsonParse matched with
        | .ok parsed => parsed
        | .error _ => { «type» := "specific", reason := "Error during analysis." }
      | none =>
        { «type» := "specific", reason := "Could not parse AI response for query type." }

/-- `determineQueryType` wired to an environment. -/
def determineQueryTypeE (env : Env) (query : String) : QueryAnalysisRaw :=
  determineQueryType env.enabled env.llm env.jsonMatch env.jsonParse query

/-- `geminiAI.generateText` (lines 184-196): throws when disabled; wraps any
model failure in a fixed error. -/
def generateTextE (env : Env) (prompt : String) : Except String String :=
  if !env.enabled then .error "AI service is not available."
  else
    match env.llm prompt with
    | .ok t => .ok t
    | .error _ => .error "Failed to generate text response"

/-- The prompt of `summarizeDocumentContent` (lines 155-166), with the content
truncated to its first 10000 characters. -/
def summaryPrompt (content query : String) : String :=
  "\nYou are an expert summarizer. Based on the full document content provided below, generate a comprehensive answer to the user\x27s original query.\n\nOriginal Query: \"" ++ query ++
  "\"\n\nDocument Content:\n---\n" ++ jsSubstringTo content 10000 ++
  "\n---\n\nProvide a detailed and well-structured summary that directly addresses the user\x27s request. Use markdown for formatting.\n"

/-- `geminiAI.summarizeDocumentContent` (lines 152-173): returns a degraded
text when disabled; rethrows model failures. -/
def summarizeDocumentContent (env : Env) (content query : String) : Except String String :=
  if !env.enabled then .ok "AI service is unavailable."
  else
    match env.llm (summaryPrompt content query) with
    | .ok t => .ok t
    | .error e => .error e

/-- `geminiAI.buildRagPrompt` (lines 175-182). -/
def buildRagPrompt (query context personalizationProfile : String) : String :=
  let base := "You are an expert assistant. Answer the user\x27s question based ONLY on the following context. If the answer is not in the context, state that the information is not available in the provided text. Do not use outside knowledge."
  let base := if personalizationProfile == "" then base
    else base ++ "\n\nTailor your response to this user\x27s profile: " ++ personalizationProfile
  base ++ "\n\nContext: --- " ++ context ++ " --- \n\nQuestion: \"" ++ query ++ "\" \n\nAnswer:"

/-! ## HybridRagService.js -/

/-- `RAG_CONFIDENCE_THRESHOLD` (HybridRagService.js line 7): `0.65`. -/
def RAG_CONFIDENCE_THRESHOLD : ℚ := 65 / 100

/-- The prompt of `correctAndClarifyQuery` (line 137). -/
def correctionPrompt (query : String) : String :=
  "Correct any spelling mistakes in the following user query. Return ONLY the corrected query, nothing else. Do not answer the question. Original Query: \"" ++ query ++
  "\" Corrected Query:"

/-- `"*` stripping of the corrected query: `replace(/["*]/g, "")`. -/
def stripQuotesAsterisks (s : String) : String :=
  String.mk (s.toList.filter (fun c => !(c == '"' || c == '*')))

/-- `HybridRagService.correctAndClarifyQuery` (lines 134-146): LLM spelling
correction; on any failure the original query is returned unchanged. -/
def correctAndClarifyQuery (env : Env) (query : String) : String :=
  match generateTextE env (correctionPrompt query) with
  | .ok correctedQuery => stripQuotesAsterisks (jsTrimString correctedQuery)
  | .error _ => query

/-- The confidence gate of `_handleSpecificQuery` (line 100):
`relevantChunks.length > 0 && relevantChunks[0].score > RAG_CONFIDENCE_THRESHOLD`.
The `[0]` access is guarded by the short-circuit length test, hence the match. -/
def isContextSufficient (relevantChunks : List RetrievedChunk) : Bool :=
  decide (0 < relevantChunks.length) &&
    (match relevantChunks with
     | [] => false
     | c :: _ => decide (RAG_CONFIDENCE_THRESHOLD < c.score))

/-- Map name of a retrieved chunk in `formatSources`:
`chunk.metadata.fileName || "Unknown Document"` (falsy covers `undefined` and
the empty string). -/
def sourceNameOf (chunk : RetrievedChunk) : String :=
  match chunk.metadata.fileName with
  | some s => if s == "" then "Unknown Document" else s
  | none => "Unknown Document"

/-- The insertion-ordered `Map` of `formatSources`, unrolled: keep the first
occurrence of every file name. -/
def formatSourcesAux : List RetrievedChunk → List String → List SourceRef
  | [], _ => []
  | chunk :: rest, seen =>
    let fileName := sourceNameOf chunk
    if fileName ∈ seen then formatSourcesAux rest seen
    else { title := fileName, «type» := "document" } :: formatSourcesAux rest (fileName :: seen)

/-- `HybridRagService.formatSources` (lines 148-157). -/
def formatSources (chunks : List RetrievedChunk) : List SourceRef :=
  formatSourcesAux chunks []

/-- The file-scoped fallback message of `_handleSpecificQuery` (line 125). -/
def fileScopedFallback : String :=
  "I couldn\x27t find a confident answer for that in the selected document. Please try rephrasing your question with more specific keywords."

/-- The library-wide fallback message of `_handleSpecificQuery` (line 126). -/
def libraryFallback : String :=
  "I couldn\x27t find a confident answer for that in your uploaded documents. Please try rephrasing your question or uploading more relevant files."

/-- `HybridRagService._handleSpecificQuery` (lines 73-132).  Retrieval and
generation failures propagate as `.error`. -/
def handleSpecificQuery (env : Env) (query userId : String) (fileId : Option String) :
    Except String RouterResult :=
  let correctedQuery := correctAndClarifyQuery env query
  let fileIdFilter := if jsTruthyStr fileId then fileId else none
  match env.searchDocuments correctedQuery 5 userId fileIdFilter with
  | .error e => .error e
  | .ok relevantChunks =>
    if isContextSufficient relevantChunks then
      let context := String.intercalate "\n\n" (relevantChunks.map RetrievedChunk.content)
      match env.findUser userId with
      | .error e => .error e
      | .ok user =>
        let personalizationProfile :=
          match user with
          | some u => u.personalizationProfile
          | none => ""
        let prompt := buildRagPrompt correctedQuery context personalizationProfile
        match generateTextE env prompt with
        | .error e => .error e
        | .ok answer =>
          .ok { message := answer
                metadata :=
                  { searchType := "rag"
                    sources := formatSources relevantChunks
                    source_count := some relevantChunks.length } }
    else
      .ok { message := if jsTruthyStr fileId then fileScopedFallback else libraryFallback
            metadata := { searchType := "rag_fallback", sources := [], source_count := none } }

/-- The `summary_requires_file` result of `_handleBroadQuery` (lines 31-36). -/
def requiresFileResult : RouterResult :=
  { message := "To get a summary, please first select a specific file to chat with from the \x27My Files\x27 menu."
    metadata := { searchType := "summary_requires_file", sources := [], source_count := none } }

/-- The `summary_error` result of `_handleBroadQuery` (lines 63-68). -/
def summaryErrorResult : RouterResult :=
  { message := "I encountered an error while trying to summarize the document. Please try again."
    metadata := { searchType := "summary_error", sources := [], source_count := none } }

/-- The body of the `try` block of `_handleBroadQuery` (lines 39-62): resolve
the file, fetch its full text, gate on length, summarize. -/
def broadQueryAttempt (env : Env) (query userId fileId : String) :
    Except String RouterResult :=
  match env.findFile fileId userId with
  | .error e => .error e
  | .ok none => .error "File not found for summarization."
  | .ok (some file) =>
    match env.parseFile file.path with
    | .error e => .error e
    | .ok fileContent =>
      if fileContent == "" || decide ((jsTrimString fileContent).length < 100) then
        .ok { message := "The selected document doesn\x27t have enough content to generate a summary."
              metadata :=
                { searchType := "summary_insufficient_content"
                  sources := [{ title := file.originalname, «type» := "document" }]
                  source_count := none } }
      else
        match summarizeDocumentContent env fileContent query with
        | .error e => .error e
        | .ok summary =>
          .ok { message := summary
                metadata :=
                  { searchType := "summary"
                    sources := [{ title := file.originalname, «type» := "document" }]
                    source_count := none } }

/-- `HybridRagService._handleBroadQuery` (lines 27-70): requires a truthy
`fileId`; every exception of the attempt is converted into `summary_error`. -/
def handleBroadQuery (env : Env) (query userId : String) (fileId : Option String) :
    RouterResult :=
  match fileId with
  | none => requiresFileResult
  | some fid =>
    if fid == "" then requiresFileResult
    else
      match broadQueryAttempt env query userId fid with
      | .ok r => r
      | .error _ => summaryErrorResult

/-- `HybridRagService.processQuery` (lines 11-24): classify the raw query,
then dispatch on `queryAnalysis.type === "broad"`. -/
def processQuery (env : Env) (query userId : String) (fileId : Option String) :
    Except String RouterResult :=
  let queryAnalysis := determineQueryTypeE env query
  if queryAnalysis.«type» == "broad" then
    .ok (handleBroadQuery env query userId fileId)
  else
    handleSpecificQuery env query userId fileId

/-- A minimal environment for concrete runs: AI enabled but every model call
failing, empty search results, no users, a failing file lookup. -/
def emptyEnv : Env :=
  { enabled := true
    llm := fun _ => .error "no model"
    jsonMatch := fun _ => none
    jsonParse := fun _ => .error "bad json"
    searchDocuments := fun _ _ _ _ => .ok []
    findUser := fun _ => .ok none
    findFile := fun _ _ => .error "db down"
    parseFile := fun _ => .ok "" }

/-- Concrete input for the chunker: 511 `a`s, one space, 100 `b`s (612
characters, so the first 512-window is cut at the space at index 511). -/
def c4Text : List Char := List.replicate 511 'a' ++ ' ' :: List.replicate 100 'b'

/-- Concrete input for the chunker: a space followed by 512 `a`s (the first
window's only whitespace sits at index 0). -/
def c5Text : List Char := ' ' :: List.replicate 512 'a'

/-- Environment where the corrector maps `"foo"` to `"bar"`, the raw query
`"foo"` classifies as `specific` and the corrected query `"bar"` classifies as
`broad`. -/
def envC8 : Env :=
  { emptyEnv with
    llm := fun p =>
      if p == correctionPrompt "foo" then .ok "bar"
      else if p == classificationPrompt "bar" then .ok "B"
      else if p == classificationPrompt "foo" then .ok "A"
      else .error "no model"
    jsonMatch := fun t => some t
    jsonParse := fun j =>
      if j == "B" then .ok { «type» := "broad", reason := "overview" }
      else .ok { «type» := "specific", reason := "detail" } }

deriving instance DecidableEq for Except

/-- Environment whose classification always yields `broad`. -/
def envBroadClassify : Env :=
  { emptyEnv with
    llm := fun _ => .ok "x"
    jsonMatch := fun t => some t
    jsonParse := fun _ => .ok { «type» := "broad", reason := "overview" } }

/-- The model oracle of `envBroadClassify` perturbed on (exactly) the
correction prompt for the query `"q"`. -/
def llmPerturbed : String → Except String String := fun p =>
  if p == correctionPrompt "q" then Except.error "e" else envBroadClassify.llm p

/-! ## Chunker lemmas -/

theorem jsSlice_length (l : List Char) (a b : Nat) :
    (jsSlice l a b).length = min (b - a) (l.length - a) := by
  simp [jsSlice]

theorem windowSlice_eq_windowRaw_rule (text : List Char) (size start : Nat) :
    windowSlice text size start =
      if min (start + size) text.length < text.length then
        match lastSpaceIdx (windowRaw text size start) with
        | some lastSpace =>
          if 0 < lastSpace then (windowRaw text size start).take lastSpace
          else windowRaw text size start
        | none => windowRaw text size start
      else windowRaw text size start := rfl

theorem windowSlice_length_pos (text : List Char) (size start : Nat)
    (hstart : start < text.length) (hsize : 0 < size) :
    0 < (windowSlice text size start).length := by
  have hw : 0 < (jsSlice text start (min (start + size) text.length)).length := by
    rw [jsSlice_length]; omega
  simp only [windowSlice]
  split
  · split
    · split
      · rename_i hpos
        simp only [List.length_take]
        omega
      · exact hw
    · exact hw
  · exact hw

theorem nextStart_eq (start sliceLen overlap : Nat) :
    nextStart start sliceLen overlap =
      if sliceLen ≤ overlap then start + sliceLen else start + sliceLen - overlap := by
  simp only [nextStart]
  split <;> split <;> omega

theorem nextStart_gt (start sliceLen overlap : Nat) (h : 0 < sliceLen) :
    start < nextStart start sliceLen overlap := by
  rw [nextStart_eq]
  split <;> omega

theorem chunkLoop_stop (text filename : List Char) (size overlap start chunkIndex fuel : Nat)
    (h : text.length ≤ start) :
    chunkLoop text filename size overlap start chunkIndex fuel = [] := by
  cases fuel with
  | zero => rfl
  | succ n =>
    have hlt : ¬ start < text.length := by omega
    simp [chunkLoop, hlt]

theorem chunkLoop_step (text filename : List Char) (size overlap start chunkIndex fuel : Nat)
    (h : start < text.length) (hfuel : 0 < fuel) :
    chunkLoop text filename size overlap start chunkIndex fuel =
      mkChunk filename chunkIndex (windowSlice text size start) ::
        chunkLoop text filename size overlap
          (nextStart start (windowSlice text size start).length overlap)
          (chunkIndex + 1) (fuel - 1) := by
  cases fuel with
  | zero => omega
  | succ n => simp [chunkLoop, h]

theorem chunkLoop_fuel_eq (text filename : List Char) (size overlap : Nat) (hsize : 0 < size) :
    ∀ fuel₁ fuel₂ start chunkIndex,
      text.length - start ≤ fuel₁ → text.length - start ≤ fuel₂ →
      chunkLoop text filename size overlap start chunkIndex fuel₁ =
        chunkLoop text filename size overlap start chunkIndex fuel₂ := by
  intro fuel₁
  induction fuel₁ with
  | zero =>
    intro fuel₂ start chunkIndex h₁ h₂
    rw [chunkLoop_stop _ _ _ _ _ _ _ (by omega), chunkLoop_stop _ _ _ _ _ _ _ (by omega)]
  | succ n ih =>
    intro fuel₂ start chunkIndex h₁ h₂
    by_cases hlt : start < text.length
    · cases fuel₂ with
      | zero => omega
      | succ m =>
        have hprog : start < nextStart start (windowSlice text size start).length overlap :=
          nextStart_gt _ _ _ (windowSlice_length_pos text size start hlt hsize)
        rw [chunkLoop_step text filename size overlap start chunkIndex (n + 1) hlt (by omega),
          chunkLoop_step text filename size overlap start chunkIndex (m + 1) hlt (by omega)]
        simp only [Nat.add_sub_cancel]
        congr 1
        exact ih m _ _ (by omega) (by omega)
    · rw [chunkLoop_stop _ _ _ _ _ _ _ (by omega), chunkLoop_stop _ _ _ _ _ _ _ (by omega)]

theorem windowSlice_tail (text : List Char) (size start : Nat)
    (h : text.length ≤ start + size) :
    windowSlice text size start = text.drop start := by
  have hmin : min (start + size) text.length = text.length := by omega
  simp only [windowSlice, hmin]
  rw [if_neg (by omega)]
  show (text.drop start).take (text.length - start) = text.drop start
  rw [← List.length_drop, List.take_length]

theorem windowSlice_all (text : List Char) (size : Nat) (h : text.length ≤ size) :
    windowSlice text size 0 = text := by
  rw [windowSlice_tail text size 0 (by omega)]
  exact List.drop_zero text

theorem mkChunk_pageContent_pos (filename : List Char) (chunkIndex : Nat) (slice : List Char) :
    0 < (mkChunk filename chunkIndex slice).pageContent.length := by
  have h : 0 < "Source Document: \"".toList.length := by decide
  simp only [mkChunk, chunkHeader, List.append_assoc, List.length_append]
  omega

/-! ## Claim theorems: chunker -/

/-- **C2**: for every input text, every chunk size `> 0` and every overlap
(including `overlap ≥ size`), each iteration of the chunking loop strictly
increases `startIndex`, so `text.length` iterations always suffice: running the
loop with any fuel of at least `text.length` gives the same (complete) result
as running it with exactly `text.length` — the loop terminates after a bounded
number of steps. -/
theorem chunker_progress_terminates (text filename : List Char) (size overlap : Nat)
    (hsize : 0 < size) :
    (∀ start, start < text.length →
        start < nextStart start (windowSlice text size start).length overlap) ∧
    (∀ fuel, text.length ≤ fuel →
        chunkLoop text filename size overlap 0 0 fuel =
          chunkLoop text filename size overlap 0 0 text.length) := by
  constructor
  · intro start hstart
    exact nextStart_gt _ _ _ (windowSlice_length_pos text size start hstart hsize)
  · intro fuel hfuel
    exact chunkLoop_fuel_eq text filename size overlap hsize fuel text.length 0 0
      (by omega) (by omega)

/-- Witness for `chunker_progress_terminates` on a concrete text with
`overlap = 5 ≥ size = 2`. -/
theorem chunker_progress_terminates_witness :
    0 < nextStart 0 (windowSlice "ab cd".toList 2 0).length 5 ∧
    chunkLoop "ab cd".toList "f".toList 2 5 0 0 9 =
      chunkLoop "ab cd".toList "f".toList 2 5 0 0 "ab cd".toList.length :=
  ⟨(chunker_progress_terminates "ab cd".toList "f".toList 2 5 (by decide)).1 0 (by decide),
   (chunker_progress_terminates "ab cd".toList "f".toList 2 5 (by decide)).2 9 (by decide)⟩

/-- **C3 (counterexample)**: 200 `a`s are non-empty after trimming and shorter
than the chunk size 512, yet `chunkText` produces two chunks, not one (the
second covers the final 100 = overlap characters). -/
theorem chunker_single_chunk_counterexample :
    jsTrim (List.replicate 200 'a') ≠ [] ∧
    (List.replicate 200 'a').length < defaultChunkSize ∧
    (chunkTextDefault (List.replicate 200 'a') "doc.txt".toList).length = 2 :=
  ⟨by decide, by decide, by decide⟩

/-- **C3 (amended)**: for non-empty (after trimming) text shorter than the
chunk size, the chunker produces exactly one chunk when the overlap is `0` or
the text is no longer than the overlap, and exactly two chunks otherwise. -/
theorem chunker_short_text_chunk_count (text filename : List Char) (size overlap : Nat)
    (hne : jsTrim text ≠ []) (hlen : text.length < size) :
    (chunkText text filename size overlap).length =
      if overlap = 0 ∨ text.length ≤ overlap then 1 else 2 := by
  have htext : text ≠ [] := by
    intro h
    exact hne (by rw [h]; rfl)
  have hpos : 0 < text.length := List.length_pos.mpr htext
  have hfilterpos : ∀ (i : Nat) (s : List Char),
      decide (0 < (mkChunk filename i s).pageContent.length) = true :=
    fun i s => decide_eq_true (mkChunk_pageContent_pos filename i s)
  rw [chunkText, if_neg (by simp [List.isEmpty_iff, hne])]
  rw [chunkLoop_step text filename size overlap 0 0 text.length hpos hpos]
  rw [windowSlice_all text size (by omega)]
  rw [nextStart_eq]
  by_cases hcase : overlap = 0 ∨ text.length ≤ overlap
  · have hnext :
        (if text.length ≤ overlap then 0 + text.length else 0 + text.length - overlap) =
          text.length := by
      rcases hcase with h | h <;> split <;> omega
    rw [hnext, chunkLoop_stop text filename size overlap text.length 1 (text.length - 1)
      (le_refl _)]
    rw [if_pos hcase]
    simp [List.filter, hfilterpos]
  · have hov : 0 < overlap := by omega
    have hovlt : overlap < text.length := by omega
    have hnext :
        (if text.length ≤ overlap then 0 + text.length else 0 + text.length - overlap) =
          text.length - overlap := by
      split <;> omega
    rw [hnext]
    rw [chunkLoop_step text filename size overlap (text.length - overlap) 1 (text.length - 1)
      (by omega) (by omega)]
    rw [windowSlice_tail text size (text.length - overlap) (by omega)]
    rw [List.length_drop, nextStart_eq]
    have hnext₂ :
        (if text.length - (text.length - overlap) ≤ overlap then
            text.length - overlap + (text.length - (text.length - overlap))
          else text.length - overlap + (text.length - (text.length - overlap)) - overlap) =
          text.length := by
      split <;> omega
    rw [hnext₂, chunkLoop_stop text filename size overlap text.length 2 (text.length - 1 - 1)
      (le_refl _)]
    rw [if_neg hcase]
    simp [List.filter, hfilterpos]

/-- Witness for `chunker_short_text_chunk_count` at a 5-character text with
size 8 and overlap 2 (two chunks). -/
theorem chunker_short_text_chunk_count_witness :
    (chunkText "hello".toList "f".toList 8 2).length = if 2 = 0 ∨ "hello".toList.length ≤ 2 then 1 else 2 :=
  chunker_short_text_chunk_count "hello".toList "f".toList 8 2 (by decide) (by decide)

/-- **C4 (counterexample)**: on `c4Text` (at the deployed size 512 / overlap
100), the first window is cut at the word boundary to 511 characters — shorter
than the full size — yet the next start is `411 = 511 - 100`: the overlap is
still subtracted, the loop does not resume at the end of the consumed span
(neither 511 nor 512), and characters 411..510, already fully covered, are
re-included (the second chunk contains 100 `a`s). -/
theorem chunker_next_start_counterexample :
    (windowSlice c4Text defaultChunkSize 0).length = 511 ∧
    (windowSlice c4Text defaultChunkSize 0).length < defaultChunkSize ∧
    nextStart 0 (windowSlice c4Text defaultChunkSize 0).length defaultChunkOverlap = 411 ∧
    ((411 : Nat) ≠ 511 ∧ (411 : Nat) ≠ 512) ∧
    (chunkTextDefault c4Text "doc.txt".toList).map
        (fun chunk => chunk.pageContent.count 'a') = [511, 100, 0] :=
  ⟨by decide, by decide, by decide, by decide, by decide⟩

/-- **C4 (amended)**: after each window, the next start is the trimmed
window's end minus the overlap; the exception — resuming exactly at the end of
the consumed (trimmed) span — applies precisely when the trimmed window's
length is at most the overlap, which is what guarantees forward progress when
`overlap ≥ size`. -/
theorem chunker_next_start_rule (text filename : List Char)
    (size overlap start chunkIndex fuel : Nat) (h : start < text.length) :
    chunkLoop text filename size overlap start chunkIndex (fuel + 1) =
      mkChunk filename chunkIndex (windowSlice text size start) ::
        chunkLoop text filename size overlap
          (if (windowSlice text size start).length ≤ overlap then
              start + (windowSlice text size start).length
            else start + (windowSlice text size start).length - overlap)
          (chunkIndex + 1) fuel := by
  rw [chunkLoop_step text filename size overlap start chunkIndex (fuel + 1) h (by omega)]
  rw [nextStart_eq]
  simp

/-- Witness for `chunker_next_start_rule` on a two-character text. -/
theorem chunker_next_start_rule_witness :
    chunkLoop "ab".toList "f".toList 1 0 0 0 (1 + 1) =
      mkChunk "f".toList 0 (windowSlice "ab".toList 1 0) ::
        chunkLoop "ab".toList "f".toList 1 0
          (if (windowSlice "ab".toList 1 0).length ≤ 0 then
              0 + (windowSlice "ab".toList 1 0).length
            else 0 + (windowSlice "ab".toList 1 0).length - 0)
          (0 + 1) 1 :=
  chunker_next_start_rule "ab".toList "f".toList 1 0 0 0 1 (by decide)

/-! ## Last-space characterization (for the word-boundary claim) -/

theorem lastSpaceIdx_eq_none (l : List Char) (h : lastSpaceIdx l = none) :
    ∀ j : Nat, l[j]? ≠ some ' ' := by
  induction l with
  | nil => intro j; simp
  | cons c cs ih =>
    intro j
    rw [lastSpaceIdx] at h
    cases hcs : lastSpaceIdx cs with
    | some k => rw [hcs] at h; cases h
    | none =>
      rw [hcs] at h
      by_cases hc : c = ' '
      · rw [if_pos hc] at h; cases h
      · cases j with
        | zero => simpa using hc
        | succ j' => simpa using ih hcs j'

theorem lastSpaceIdx_eq_some (l : List Char) :
    ∀ i : Nat, lastSpaceIdx l = some i →
      l[i]? = some ' ' ∧ ∀ j : Nat, i < j → l[j]? ≠ some ' ' := by
  induction l with
  | nil => intro i h; cases h
  | cons c cs ih =>
    intro i h
    rw [lastSpaceIdx] at h
    cases hcs : lastSpaceIdx cs with
    | some k =>
      rw [hcs] at h
      obtain rfl : k + 1 = i := by injection h
      obtain ⟨h1, h2⟩ := ih k hcs
      refine ⟨by simpa using h1, ?_⟩
      intro j hj
      cases j with
      | zero => omega
      | succ j' => simpa using h2 j' (by omega)
    | none =>
      rw [hcs] at h
      by_cases hc : c = ' '
      · rw [if_pos hc] at h
        obtain rfl : (0 : Nat) = i := by injection h
        refine ⟨by simp [hc], ?_⟩
        intro j hj
        cases j with
        | zero => omega
        | succ j' => simpa using lastSpaceIdx_eq_none cs hcs j'
      · rw [if_neg hc] at h; cases h

/-- **C5 (counterexample)**: on `c5Text` the first 512-window does not reach
the end of the text and contains whitespace (the space at index 0), yet the
hard cut at the full window size is kept — the window is not trimmed to any
whitespace boundary. -/
theorem chunker_word_boundary_counterexample :
    min (0 + defaultChunkSize) c5Text.length < c5Text.length ∧
    ' ' ∈ windowRaw c5Text defaultChunkSize 0 ∧
    windowSlice c5Text defaultChunkSize 0 = windowRaw c5Text defaultChunkSize 0 ∧
    (windowRaw c5Text defaultChunkSize 0).length = defaultChunkSize :=
  ⟨by decide, by decide, by decide, by decide⟩

/-- **C5 (amended)**: for a window that does not reach the end of the text,
the chunker trims back to the last space character `' '` of the window
provided its index is strictly positive; the hard cut is kept exactly when the
window has no space at a positive index — in particular when its only space is
at index 0, or when its whitespace is not the space character. -/
theorem chunker_word_boundary_rule (text : List Char) (size start : Nat)
    (hmid : min (start + size) text.length < text.length) :
    (∃ i, 0 < i ∧
        (windowRaw text size start)[i]? = some ' ' ∧
        (∀ j, i < j → (windowRaw text size start)[j]? ≠ some ' ') ∧
        windowSlice text size start = (windowRaw text size start).take i) ∨
    ((∀ j, 0 < j → (windowRaw text size start)[j]? ≠ some ' ') ∧
        windowSlice text size start = windowRaw text size start) := by
  rw [windowSlice_eq_windowRaw_rule, if_pos hmid]
  cases h : lastSpaceIdx (windowRaw text size start) with
  | none =>
    right
    exact ⟨fun j _ => lastSpaceIdx_eq_none _ h j, rfl⟩
  | some i =>
    obtain ⟨h1, h2⟩ := lastSpaceIdx_eq_some _ i h
    by_cases hi : 0 < i
    · left
      refine ⟨i, hi, h1, h2, ?_⟩
      show (if 0 < i then (windowRaw text size start).take i else windowRaw text size start) =
        (windowRaw text size start).take i
      rw [if_pos hi]
    · right
      refine ⟨fun j hj => h2 j (by omega), ?_⟩
      show (if 0 < i then (windowRaw text size start).take i else windowRaw text size start) =
        windowRaw text size start
      rw [if_neg hi]

/-- Witness for `chunker_word_boundary_rule`: the window `"ab c"` of
`"ab cdef"` is trimmed at its last space, index 2. -/
theorem chunker_word_boundary_rule_witness :
    (∃ i, 0 < i ∧
        (windowRaw "ab cdef".toList 4 0)[i]? = some ' ' ∧
        (∀ j, i < j → (windowRaw "ab cdef".toList 4 0)[j]? ≠ some ' ') ∧
        windowSlice "ab cdef".toList 4 0 = (windowRaw "ab cdef".toList 4 0).take i) ∨
    ((∀ j, 0 < j → (windowRaw "ab cdef".toList 4 0)[j]? ≠ some ' ') ∧
        windowSlice "ab cdef".toList 4 0 = windowRaw "ab cdef".toList 4 0) :=
  chunker_word_boundary_rule "ab cdef".toList 4 0 (by decide)

/-! ## Router lemmas -/

theorem correctionPrompt_head (q : String) :
    (correctionPrompt q).data.head? = some 'C' := rfl

theorem classificationPrompt_head (q : String) :
    (classificationPrompt q).data.head? = some '\n' := rfl

theorem summaryPrompt_head (content q : String) :
    (summaryPrompt content q).data.head? = some '\n' := rfl

theorem correctionPrompt_ne_classificationPrompt (q q' : String) :
    correctionPrompt q ≠ classificationPrompt q' := by
  intro h
  have h1 := correctionPrompt_head q
  rw [h, classificationPrompt_head] at h1
  exact absurd h1 (by decide)

theorem correctionPrompt_ne_summaryPrompt (q content q' : String) :
    correctionPrompt q ≠ summaryPrompt content q' := by
  intro h
  have h1 := correctionPrompt_head q
  rw [h, summaryPrompt_head] at h1
  exact absurd h1 (by decide)

theorem generateTextE_congr_llm (env : Env) (llm' : String → Except String String)
    (p : String) (h : llm' p = env.llm p) :
    generateTextE { env with llm := llm' } p = generateTextE env p := by
  simp [generateTextE, h]

theorem correctAndClarifyQuery_congr_llm (env : Env) (llm' : String → Except String String)
    (q : String) (h : llm' (correctionPrompt q) = env.llm (correctionPrompt q)) :
    correctAndClarifyQuery { env with llm := llm' } q = correctAndClarifyQuery env q := by
  unfold correctAndClarifyQuery
  rw [generateTextE_congr_llm env llm' _ h]

theorem determineQueryTypeE_congr_llm (env : Env) (llm' : String → Except String String)
    (q : String) (h : llm' (classificationPrompt q) = env.llm (classificationPrompt q)) :
    determineQueryTypeE { env with llm := llm' } q = determineQueryTypeE env q := by
  simp [determineQueryTypeE, determineQueryType, h]

theorem summarizeDocumentContent_congr_llm (env : Env) (llm' : String → Except String String)
    (content q : String)
    (h : llm' (summaryPrompt content q) = env.llm (summaryPrompt content q)) :
    summarizeDocumentContent { env with llm := llm' } content q =
      summarizeDocumentContent env content q := by
  simp [summarizeDocumentContent, h]

theorem broadQueryAttempt_congr_llm (env : Env) (llm' : String → Except String String)
    (q userId fid : String)
    (h : ∀ content, llm' (summaryPrompt content q) = env.llm (summaryPrompt content q)) :
    broadQueryAttempt { env with llm := llm' } q userId fid =
      broadQueryAttempt env q userId fid := by
  cases hf : env.findFile fid userId with
  | error e => simp [broadQueryAttempt, hf]
  | ok o =>
    cases o with
    | none => simp [broadQueryAttempt, hf]
    | some file =>
      cases hp : env.parseFile file.path with
      | error e => simp [broadQueryAttempt, hf, hp]
      | ok content =>
        by_cases hc : (content == "" || decide ((jsTrimString content).length < 100)) = true
        · simp [broadQueryAttempt, hf, hp, hc]
        · simp only [Bool.not_eq_true] at hc
          simp [broadQueryAttempt, hf, hp, hc,
            summarizeDocumentContent_congr_llm env llm' content q (h content)]

theorem handleBroadQuery_congr_llm (env : Env) (llm' : String → Except String String)
    (q userId : String) (fileId : Option String)
    (h : ∀ content, llm' (summaryPrompt content q) = env.llm (summaryPrompt content q)) :
    handleBroadQuery { env with llm := llm' } q userId fileId =
      handleBroadQuery env q userId fileId := by
  cases fileId with
  | none => rfl
  | some fid =>
    by_cases hf : (fid == "") = true
    · simp [handleBroadQuery, hf]
    · simp only [Bool.not_eq_true] at hf
      simp [handleBroadQuery, hf, broadQueryAttempt_congr_llm env llm' q userId fid h]

/-! ## Claim theorems: router -/

/-- **C1**: retrieval is judged sufficient iff the retriever returned at least
one chunk and the top chunk's score strictly exceeds the threshold
`RAG_CONFIDENCE_THRESHOLD = 0.65`; a top score of exactly `0.65` fails the gate
(so the fallback branch is taken) while `0.6501` passes it (the RAG answer
branch). -/
theorem confidence_gate_spec :
    (∀ chunks : List RetrievedChunk,
        isContextSufficient chunks = true ↔
          ∃ c rest, chunks = c :: rest ∧ RAG_CONFIDENCE_THRESHOLD < c.score) ∧
    (∀ (c : RetrievedChunk) (rest : List RetrievedChunk),
        c.score = 65 / 100 → isContextSufficient (c :: rest) = false) ∧
    (∀ (c : RetrievedChunk) (rest : List RetrievedChunk),
        c.score = 6501 / 10000 → isContextSufficient (c :: rest) = true) := by
  refine ⟨?_, ?_, ?_⟩
  · intro chunks
    cases chunks with
    | nil => simp [isContextSufficient]
    | cons c rest =>
      constructor
      · intro h
        refine ⟨c, rest, rfl, ?_⟩
        simpa [isContextSufficient] using h
      · rintro ⟨c', rest', heq, hscore⟩
        obtain ⟨rfl, rfl⟩ : c = c' ∧ rest = rest' := by
          injection heq with h1 h2
          exact ⟨h1, h2⟩
        simpa [isContextSufficient] using hscore
  · intro c rest h
    simp [isContextSufficient, h, RAG_CONFIDENCE_THRESHOLD]
  · intro c rest h
    simp [isContextSufficient, h, RAG_CONFIDENCE_THRESHOLD]
    norm_num

/-- Witness for `confidence_gate_spec`: singleton result lists at the two
boundary scores. -/
theorem confidence_gate_spec_witness :
    isContextSufficient
        [{ content := "c", score := 65 / 100, metadata := { fileName := none } }] = false ∧
    isContextSufficient
        [{ content := "c", score := 6501 / 10000, metadata := { fileName := none } }] = true :=
  ⟨confidence_gate_spec.2.1 _ [] rfl, confidence_gate_spec.2.2 _ [] rfl⟩

/-- **C6**: when the confidence gate judges retrieval insufficient, the
specific-path handler returns `searchType = "rag_fallback"` with empty sources
and the fixed fallback message — file-scoped wording (`"selected document"`)
when a `fileId` is active, library-wide wording (`"uploaded documents"`)
otherwise.  The result depends on the model oracle only through the correction
prompt, i.e. no LLM generation call is made on this branch. -/
theorem rag_fallback_terminal (env : Env) (query userId : String) (fileId : Option String)
    (chunks : List RetrievedChunk)
    (hsearch : env.searchDocuments (correctAndClarifyQuery env query) 5 userId
        (if jsTruthyStr fileId then fileId else none) = .ok chunks)
    (hgate : isContextSufficient chunks = false) :
    (handleSpecificQuery env query userId fileId =
      .ok { message := if jsTruthyStr fileId then fileScopedFallback else libraryFallback
            metadata := { searchType := "rag_fallback", sources := [], source_count := none } }) ∧
    (∀ llm' : String → Except String String,
        llm' (correctionPrompt query) = env.llm (correctionPrompt query) →
        handleSpecificQuery { env with llm := llm' } query userId fileId =
          handleSpecificQuery env query userId fileId) ∧
    "selected document".toList <:+: fileScopedFallback.toList ∧
    "uploaded documents".toList <:+: libraryFallback.toList := by
  have main : ∀ env₀ : Env,
      env₀.searchDocuments (correctAndClarifyQuery env₀ query) 5 userId
          (if jsTruthyStr fileId then fileId else none) = .ok chunks →
      handleSpecificQuery env₀ query userId fileId =
        .ok { message := if jsTruthyStr fileId then fileScopedFallback else libraryFallback
              metadata :=
                { searchType := "rag_fallback", sources := [], source_count := none } } := by
    intro env₀ hs
    simp [handleSpecificQuery, hs, hgate]
  refine ⟨main env hsearch, ?_, by decide, by decide⟩
  intro llm' hc
  have hs' : ({ env with llm := llm' } : Env).searchDocuments
      (correctAndClarifyQuery { env with llm := llm' } query) 5 userId
      (if jsTruthyStr fileId then fileId else none) = .ok chunks := by
    rw [correctAndClarifyQuery_congr_llm env llm' query hc]
    exact hsearch
  rw [main _ hs', main env hsearch]

/-- Witness for `rag_fallback_terminal`: empty search results in `emptyEnv`. -/
theorem rag_fallback_terminal_witness :
    handleSpecificQuery emptyEnv "q" "u" none =
      .ok { message := if jsTruthyStr none then fileScopedFallback else libraryFallback
            metadata := { searchType := "rag_fallback", sources := [], source_count := none } } :=
  (rag_fallback_terminal emptyEnv "q" "u" none [] rfl rfl).1

/-- **C7**: on the broad path with a (truthy) `fileId`, every exception of the
summarization attempt — the file lookup throwing or finding nothing, the text
fetch throwing, the summarizer throwing — makes the handler return the fixed
`summaryErrorResult` (`searchType = "summary_error"`, a user-safe apology,
empty sources); the underlying error value `e` never reaches the caller: the
handler's return type carries no error and its result does not depend on `e`. -/
theorem broad_error_soft (env : Env) (query userId fid : String) :
    (∀ e, broadQueryAttempt env query userId fid = .error e → fid ≠ "" →
        handleBroadQuery env query userId (some fid) = summaryErrorResult) ∧
    (∀ e, env.findFile fid userId = .error e →
        broadQueryAttempt env query userId fid = .error e) ∧
    (env.findFile fid userId = .ok none →
        broadQueryAttempt env query userId fid = .error "File not found for summarization.") ∧
    (∀ file e, env.findFile fid userId = .ok (some file) →
        env.parseFile file.path = .error e →
        broadQueryAttempt env query userId fid = .error e) ∧
    (∀ file content e, env.findFile fid userId = .ok (some file) →
        env.parseFile file.path = .ok content →
        (content == "" || decide ((jsTrimString content).length < 100)) = false →
        summarizeDocumentContent env content query = .error e →
        broadQueryAttempt env query userId fid = .error e) := by
  refine ⟨?_, ?_, ?_, ?_, ?_⟩
  · intro e h hfid
    have hf : (fid == "") = false := by
      simpa using hfid
    simp [handleBroadQuery, hf, h]
  · intro e h
    simp [broadQueryAttempt, h]
  · intro h
    simp [broadQueryAttempt, h]
  · intro file e h hp
    simp [broadQueryAttempt, h, hp]
  · intro file content e h hp hc hs
    simp [broadQueryAttempt, h, hp, hc, hs]

/-- Witness for `broad_error_soft`: the file lookup of `emptyEnv` throws. -/
theorem broad_error_soft_witness :
    handleBroadQuery emptyEnv "q" "u" (some "f") = summaryErrorResult :=
  (broad_error_soft emptyEnv "q" "u" "f").1 "db down" rfl (by decide)

/-- **C9**: the classifier returns `type = "specific"` with a diagnostic
reason whenever the LLM is disabled, the classification call throws, the
response contains no JSON object, or `JSON.parse` throws; being a total
function into `QueryAnalysisRaw`, it never raises an error to the router. -/
theorem classifier_specific_default (enabled : Bool) (llm : String → Except String String)
    (jsonMatch : String → Option String)
    (jsonParse : String → Except String QueryAnalysisRaw) (query : String) :
    (enabled = false →
        determineQueryType enabled llm jsonMatch jsonParse query =
          { «type» := "specific", reason := "AI disabled" }) ∧
    (∀ e, llm (classificationPrompt query) = .error e →
        determineQueryType true llm jsonMatch jsonParse query =
          { «type» := "specific", reason := "Error during analysis." }) ∧
    (∀ t, llm (classificationPrompt query) = .ok t → jsonMatch t = none →
        determineQueryType true llm jsonMatch jsonParse query =
          { «type» := "specific", reason := "Could not parse AI response for query type." }) ∧
    (∀ t matched e, llm (classificationPrompt query) = .ok t → jsonMatch t = some matched →
        jsonParse matched = .error e →
        determineQueryType true llm jsonMatch jsonParse query =
          { «type» := "specific", reason := "Error during analysis." }) := by
  refine ⟨?_, ?_, ?_, ?_⟩
  · intro h
    subst h
    rfl
  · intro e h
    simp [determineQueryType, h]
  · intro t h hm
    simp [determineQueryType, h, hm]
  · intro t matched e h hm hp
    simp [determineQueryType, h, hm, hp]

/-- Witness for `classifier_specific_default`: a throwing model call. -/
theorem classifier_specific_default_witness :
    determineQueryType true (fun _ => .error "no model") (fun _ => none)
        (fun _ => .error "bad json") "q" =
      { «type» := "specific", reason := "Error during analysis." } :=
  (classifier_specific_default true (fun _ => .error "no model") (fun _ => none)
      (fun _ => .error "bad json") "q").2.1 "no model" rfl

/-- **C10**: the router invokes exactly one of the two handlers: the broad
handler iff the classified type is the exact string `"broad"` (any other
string — the parsed JSON is never validated — goes to the specific handler),
and the collaborators of the handler that was not taken (vector store and user
lookup on the broad branch; file lookup and text fetch on the specific branch)
are never consulted: the result is invariant under replacing them. -/
theorem router_dispatch_exclusive (env : Env) (query userId : String) (fileId : Option String) :
    ((determineQueryTypeE env query).«type» = "broad" →
        processQuery env query userId fileId = .ok (handleBroadQuery env query userId fileId) ∧
        ∀ sd fu,
          processQuery { env with searchDocuments := sd, findUser := fu } query userId fileId =
            processQuery env query userId fileId) ∧
    ((determineQueryTypeE env query).«type» ≠ "broad" →
        processQuery env query userId fileId = handleSpecificQuery env query userId fileId ∧
        ∀ ff pf,
          processQuery { env with findFile := ff, parseFile := pf } query userId fileId =
            processQuery env query userId fileId) := by
  constructor
  · intro h
    have hb : ((determineQueryTypeE env query).«type» == "broad") = true := by
      simp [h]
    refine ⟨by simp [processQuery, hb], ?_⟩
    intro sd fu
    have hb' : ((determineQueryTypeE
        { env with searchDocuments := sd, findUser := fu } query).«type» == "broad") = true :=
      hb
    simp only [processQuery, hb', hb, if_true]
    rfl
  · intro h
    have hb : ((determineQueryTypeE env query).«type» == "broad") = false := by
      simpa using h
    refine ⟨by simp [processQuery, hb], ?_⟩
    intro ff pf
    have hb' : ((determineQueryTypeE
        { env with findFile := ff, parseFile := pf } query).«type» == "broad") = false :=
      hb
    simp only [processQuery, hb', hb, Bool.false_eq_true, if_false]
    rfl

/-- Witness for `router_dispatch_exclusive`: a broad-classifying environment
takes the broad handler, and `emptyEnv` (which classifies `specific`) takes
the specific handler. -/
theorem router_dispatch_exclusive_witness :
    processQuery envBroadClassify "q" "u" none =
      .ok (handleBroadQuery envBroadClassify "q" "u" none) ∧
    processQuery emptyEnv "q" "u" none = handleSpecificQuery emptyEnv "q" "u" none :=
  ⟨((router_dispatch_exclusive envBroadClassify "q" "u" none).1 (by decide)).1,
   ((router_dispatch_exclusive emptyEnv "q" "u" none).2 (by decide)).1⟩

/-- **C8 (counterexample)**: in `envC8` the corrector maps `"foo"` to `"bar"`
and the corrected query `"bar"` classifies as `broad`; if the classifier
received the corrected query, the router would take the broad path (here: the
`summary_requires_file` result).  Instead `processQuery` returns the
specific-path fallback: the classifier ran on the raw query (which classifies
`specific`) and correction ran only afterwards, inside the specific handler. -/
theorem classify_before_correct_counterexample :
    correctAndClarifyQuery envC8 "foo" = "bar" ∧
    (determineQueryTypeE envC8 "bar").«type» = "broad" ∧
    (determineQueryTypeE envC8 "foo").«type» = "specific" ∧
    handleBroadQuery envC8 "foo" "u" none = requiresFileResult ∧
    processQuery envC8 "foo" "u" none =
      .ok { message := libraryFallback
            metadata := { searchType := "rag_fallback", sources := [], source_count := none } } ∧
    processQuery envC8 "foo" "u" none ≠ .ok (handleBroadQuery envC8 "foo" "u" none) :=
  ⟨by decide, by decide, by decide, by decide, by decide, by decide⟩

/-- **C8 (amended)**: the classifier runs on the raw, uncorrected query;
correction runs only inside the specific-path handler, after classification.
Hence when the raw query classifies as `broad`, the router takes the broad
path and its result is independent of the model's behaviour on the correction
prompt — the corrector is never invoked. -/
theorem classify_raw_query_rule (env : Env) (query userId : String) (fileId : Option String)
    (llm' : String → Except String String)
    (hagree : ∀ p, p ≠ correctionPrompt query → llm' p = env.llm p)
    (hbroad : (determineQueryTypeE env query).«type» = "broad") :
    processQuery { env with llm := llm' } query userId fileId =
      processQuery env query userId fileId ∧
    processQuery env query userId fileId = .ok (handleBroadQuery env query userId fileId) := by
  have hcl : llm' (classificationPrompt query) = env.llm (classificationPrompt query) :=
    hagree _ (Ne.symm (correctionPrompt_ne_classificationPrompt query query))
  have hsumm : ∀ content,
      llm' (summaryPrompt content query) = env.llm (summaryPrompt content query) :=
    fun content => hagree _ (Ne.symm (correctionPrompt_ne_summaryPrompt query content query))
  have hdq : determineQueryTypeE { env with llm := llm' } query = determineQueryTypeE env query :=
    determineQueryTypeE_congr_llm env llm' query hcl
  have hb : ((determineQueryTypeE env query).«type» == "broad") = true := by
    simp [hbroad]
  constructor
  · simp only [processQuery, hdq, hb, if_true]
    rw [handleBroadQuery_congr_llm env llm' query userId fileId hsumm]
  · simp [processQuery, hb]

/-- Witness for `classify_raw_query_rule`: `envBroadClassify` with a model
oracle perturbed on (exactly) the correction prompt. -/
theorem classify_raw_query_rule_witness :
    processQuery { envBroadClassify with llm := llmPerturbed } "q" "u" none =
      processQuery envBroadClassify "q" "u" none ∧
    processQuery envBroadClassify "q" "u" none =
      .ok (handleBroadQuery envBroadClassify "q" "u" none) :=
  classify_raw_query_rule envBroadClassify "q" "u" none llmPerturbed
    (fun p hp => by simp [llmPerturbed, hp]) (by decide)

end ChatbotCore
